import Mathlib

/-!
Verification development for the quacc (HT-ASE) calculation-execution and
result-normalization pipeline: scratch staging, run executor, geometry
resynchronization, cleanup/archival, and result summarizer.

The Python sources are shallowly embedded as Lean functions.  File names are
encoded as lists of character codes, atomic structures as records of species
numbers, positions, cell and an optional attached calculator.  The wrapped
third-party calculator (ASE) is a parameter of each runner: a function from
the structure it is handed to either an error or an updated structure.
-/

namespace Quacc

/-- A position or cell vector: an opaque numeric triple.  The pipeline only
moves these values around; it performs no arithmetic on them. -/
abbrev Vec3 := Int × Int × Int

/-- An attached calculator, as seen by the pipeline: its parameters and the
results map it exposes after a computation (ase.py, data model of the spec). -/
structure Calc where
  params : List (Nat × Int)
  results : List (Nat × Int)
  deriving DecidableEq, Repr

/-- An ASE Atoms object, restricted to the fields the pipeline touches:
atomic numbers (species sequence), positions, cell, optional per-site
magnetic moments, and the optional attached calculator. -/
structure Atoms where
  numbers : List Nat
  positions : List Vec3
  cell : List Vec3
  magmoms : List Int
  calc_ : Option Calc
  deriving DecidableEq, Repr

/-- Modelled from the spec: `copy_atoms` (quacc.atoms.core, not under src/)
returns a deep copy of the Atoms object so the runner never mutates the
caller.  At the value level a deep copy is the identity; heap-level
non-aliasing is modelled separately in the heap embedding below. -/
def copy_atoms (a : Atoms) : Atoms :=
  { numbers := a.numbers
    positions := a.positions
    cell := a.cell
    magmoms := a.magmoms
    calc_ := a.calc_ }

/-- Errors a run can surface to the caller. -/
inductive RunErr where
  /-- The wrapped calculator raised; the payload is the original exception. -/
  | calcFail (code : Nat)
  /-- The geometry output file could not be located or parsed
  (read of zpath raised). -/
  | geomRead
  /-- The species-sequence sanity check of geometry resynchronization failed
  (the ValueError of ase.py line 138). -/
  | speciesMismatch
  deriving DecidableEq, Repr

/-- Counters recording how often each staging or archival primitive ran
during one invocation of the run executor. -/
structure RunCounters where
  setups : Nat
  cleanups : Nat
  terminates : Nat
  deriving DecidableEq, Repr

/-- The behaviour of `atoms.calc.calculate(atoms, properties, all_changes)`:
given the structure the runner hands it, either raise (an error code) or
return the updated structure (results written into the attached calculator,
positions possibly moved by an internal optimizer). -/
abbrev CalcBehaviour := Atoms → Except Nat Atoms

/-- The result of `read(zpath(tmpdir / geom_file))`: `none` when no
`geom_file` keyword was supplied; `some frames` when it was, where `frames`
is the list of parsed frames (empty when the file is missing or unreadable,
in which case the read raises). -/
abbrev GeomRead := Option (List Atoms)

/-- Embedding of `run_calc` from src/src/quacc/runners/ase.py lines 104-146.
`calc_setup`, `calc_cleanup` and `terminate` live in quacc/runners/prep.py,
which is not under src/; they are modelled from the spec as staging and
archival events and counted.  Per the spec, `terminate` performs
cleanup/archival of the partial output and re-raises the original
exception unchanged.  The control flow — copy, stage, try calculate with
terminate on exception, then geometry resynchronization, then
`calc_cleanup` — follows the source line by line; in particular the
resynchronization block (lines 127-141) runs after the try/except and
before `calc_cleanup` (line 144), outside any finally-like construct. -/
def run_calc (behave : CalcBehaviour) (geomFile : GeomRead) (atoms0 : Atoms) :
    Except RunErr Atoms × RunCounters :=
  let atoms := copy_atoms atoms0
  match behave atoms with
  | .error e =>
      (.error (.calcFail e), { setups := 1, cleanups := 0, terminates := 1 })
  | .ok atoms1 =>
      match geomFile with
      | none => (.ok atoms1, { setups := 1, cleanups := 1, terminates := 0 })
      | some frames =>
          match frames.getLast? with
          | none =>
              (.error .geomRead, { setups := 1, cleanups := 0, terminates := 0 })
          | some atomsNew =>
              if atomsNew.numbers = atoms1.numbers then
                (.ok { atoms1 with
                         positions := atomsNew.positions
                         cell := atomsNew.cell },
                 { setups := 1, cleanups := 1, terminates := 0 })
              else
                (.error .speciesMismatch,
                 { setups := 1, cleanups := 0, terminates := 0 })

/-- A file name, encoded as its list of character codes. -/
abbrev FName := List Nat

/-- The character codes of the suffix `.gz` (46 = dot, 103 = g, 122 = z). -/
def gzExt : FName := [46, 103, 122]

/-- The monty helper `zpath` (third-party, modelled from its documented
behaviour): return the existing variant of a file name, checking the plain
name first and then the gzip-compressed one; when neither exists the plain
name is returned unchanged.  The further compressed variants monty checks
(.bz2, .z and upper-case forms) play no role in this repository and are
omitted. -/
def zpath (present : FName → Bool) (f : FName) : FName :=
  if present f then f
  else if present (f ++ gzExt) then f ++ gzExt
  else f

/-- The monty helper `decompress_file` (third-party, modelled from its
documented behaviour): decompressing a `.gz` file replaces it by the file
named without the suffix; a file that is not compressed is left as is. -/
def decompress_file (f : FName) : FName :=
  if gzExt.isSuffixOf f then f.take (f.length - gzExt.length) else f

/-- The name a file gets when `gzip_dir` compresses a directory (monty,
third-party, modelled from its documented behaviour): already compressed
files are skipped, the rest gain the `.gz` suffix. -/
def gzip_name (f : FName) : FName :=
  if gzExt.isSuffixOf f then f else f ++ gzExt

/-- Embedding of `copy_decompress` from src/src/quacc/util/files.py lines
48-70: for each manifest entry, locate the file or its compressed variant
via `zpath`; when found, copy it to the destination and decompress it;
when absent, record a warning and continue with the remaining entries.
Returns the pair of destination contents and warnings; the source list
gives the files existing in the source directory. -/
def copy_decompress (sourceDir : List FName) : List FName → List FName × List FName
  | [] => ([], [])
  | f :: rest =>
      let z := zpath (fun g => sourceDir.contains g) f
      let r := copy_decompress sourceDir rest
      if sourceDir.contains z then (decompress_file z :: r.1, r.2)
      else (r.1, z :: r.2)

/-- Embedding of `check_logfile` from src/src/quacc/util/files.py lines
22-45: scan the lines of a log file for a given string,
case-insensitively; true as soon as one line contains it. -/
def toLowerCh (c : Nat) : Nat := if 65 ≤ c ∧ c ≤ 90 then c + 32 else c

/-- Lower-casing of an encoded name, character by character. -/
def lowerName (f : FName) : FName := f.map toLowerCh

/-- Executable substring test: does the needle occur contiguously inside the
haystack?  This models the Python `in` operator on strings. -/
def isInfixB (needle hay : FName) : Bool :=
  (List.range (hay.length + 1)).any (fun i => needle.isPrefixOf (hay.drop i))

/-- Embedding of `check_logfile` (src/src/quacc/util/files.py lines 22-45). -/
def check_logfile (lines : List FName) (checkStr : FName) : Bool :=
  lines.any (fun l => isInfixB (lowerName checkStr) (lowerName l))

/-- The filesystem state threaded through the older runner of
src/quacc/util/calc.py: the ids of existing scratch directories, a counter
producing fresh `mkdtemp` names, the contents of the permanent working
directory and of the scratch directory of the current run, the target of
the `tmp_dir` symlink (`none` when absent), and which directory the process
is chdir-ed into (`none` = the permanent directory). -/
structure OldFS where
  dirs : List Nat
  nextId : Nat
  cwdFiles : List FName
  tmpFiles : List FName
  link : Option Nat
  cwd : Option Nat
  deriving DecidableEq, Repr

/-- A well-formed state: every existing directory id is below the fresh-name
counter, so `mkdtemp` never collides with an existing directory. -/
def OldFS.WF (fs : OldFS) : Prop := ∀ d ∈ fs.dirs, d < fs.nextId

/-- A dangling alias: the `tmp_dir` symlink points at a directory that does
not exist. -/
def OldFS.Dangling (fs : OldFS) : Prop :=
  ∃ t, fs.link = some t ∧ t ∉ fs.dirs

/-- Errors the older `run_calc` of src/quacc/util/calc.py can raise. -/
inductive UtilErr where
  /-- ValueError of line 70: the Atoms object has no attached calculator. -/
  | noCalc
  /-- The wrapped calculator raised during `get_potential_energy`. -/
  | calcFail (code : Nat)
  /-- The geometry output file existed but could not be parsed. -/
  | geomRead
  /-- ValueError of line 123: atomic numbers do not match the geometry file. -/
  | speciesMismatch
  deriving DecidableEq, Repr

/-- The staging portion of `run_calc` in src/quacc/util/calc.py (lines
72-88, on a platform with symlinks): `mkdtemp` creates a fresh scratch
directory; a pre-existing `tmp_dir` symlink is unlinked and a new one is
created pointing at the fresh directory (lines 81-84); the copy manifest is
staged into scratch via `copy_decompress` (lines 86-88).  Returns the fresh
directory id and the updated state. -/
def util_stage (fs : OldFS) (copyFiles : List FName) : Nat × OldFS :=
  let tid := fs.nextId
  let staged := (copy_decompress fs.cwdFiles copyFiles).1
  (tid,
   { fs with
       dirs := fs.dirs ++ [tid]
       nextId := fs.nextId + 1
       link := some tid
       tmpFiles := staged })

/-- The behaviour of `atoms.get_potential_energy()` in the scratch
directory: from the structure and the staged scratch contents, either raise
(an error code) or return the updated structure together with the output
files the computation wrote into scratch. -/
abbrev OldCalcBehaviour := Atoms → List FName → Except Nat (Atoms × List FName)

/-- The outcome of the geometry-file lookup and read of lines 110-116 of
src/quacc/util/calc.py: `none` when no `geom_file` argument was given;
`some none` when it was given but `zpath` finds no such file (the
resynchronization block is silently skipped); `some (some frames)` when the
file exists, with its parsed frames. -/
abbrev OldGeomRead := Option (Option (List Atoms))

/-- Embedding of `run_calc` from src/quacc/util/calc.py lines 31-128.  The
calculator-presence check (lines 69-70) precedes staging; staging is
`util_stage`; the computation runs chdir-ed into scratch (lines 91-93); on
success the scratch is gzipped when requested (lines 96-97), copied back to
the permanent directory (line 100), the symlink is removed (lines 103-104)
and geometry resynchronization runs last (lines 110-127).  There is no
try/finally: when the computation raises, the exception propagates at line
92 and none of the gzip, copy-back or symlink-removal steps run; the
process is even left chdir-ed into the scratch directory. -/
def util_run_calc (behave : OldCalcBehaviour) (geomFile : OldGeomRead)
    (gzipFlag : Bool) (copyFiles : List FName) (a0 : Atoms) (fs : OldFS) :
    Except UtilErr Atoms × OldFS :=
  if a0.calc_ = none then (.error .noCalc, fs)
  else
    let atoms := copy_atoms a0
    let s := util_stage fs copyFiles
    let fs2 := { s.2 with cwd := some s.1 }
    match behave atoms fs2.tmpFiles with
    | .error e => (.error (.calcFail e), fs2)
    | .ok (atoms1, outFiles) =>
        let fs3 := { fs2 with tmpFiles := fs2.tmpFiles ++ outFiles, cwd := none }
        let fs4 :=
          if gzipFlag then { fs3 with tmpFiles := fs3.tmpFiles.map gzip_name }
          else fs3
        let fs5 := { fs4 with cwdFiles := fs4.cwdFiles ++ fs4.tmpFiles }
        let fs6 := { fs5 with link := none }
        match geomFile with
        | none => (.ok atoms1, fs6)
        | some none => (.ok atoms1, fs6)
        | some (some frames) =>
            match frames.getLast? with
            | none => (.error .geomRead, fs6)
            | some atomsNew =>
                if atomsNew.numbers = atoms1.numbers then
                  (.ok { atoms1 with
                           positions := atomsNew.positions
                           cell := atomsNew.cell }, fs6)
                else (.error .speciesMismatch, fs6)

/-- Modelled from the spec: the iterative optimizer loop driven by
`run_opt` (src/src/quacc/runners/ase.py lines 242-262).  The loop itself is
`dyn.irun(fmax, steps)` of the third-party optimizer, which the spec
describes as running "to convergence (max force below threshold) or a
maximum step count".  The state type is abstract; `step` is one optimizer
step and `maxforce` reads the maximum force of a state.  The function
returns the number of steps taken, the final state, and the trajectory
frames written (one per step taken, per the spec).  The first argument of
the recursion is the remaining step budget. -/
def irun {σ : Type} (step : σ → σ) (maxforce : σ → ℚ) (fmax : ℚ) :
    Nat → σ → Nat × σ × List σ
  | 0, s => (0, s, [])
  | n + 1, s =>
      if maxforce s ≤ fmax then (0, s, [])
      else
        let r := irun step maxforce fmax n (step s)
        (r.1 + 1, r.2.1, step s :: r.2.2)

/-- Embedding of the optimization drive of `run_opt`
(src/src/quacc/runners/ase.py lines 149-272): the optimizer is run with the
requested force tolerance `fmax` and step budget `max_steps`; see `irun`
for the loop. -/
def run_opt {σ : Type} (step : σ → σ) (maxforce : σ → ℚ) (fmax : ℚ)
    (max_steps : Nat) (s0 : σ) : Nat × σ × List σ :=
  irun step maxforce fmax max_steps s0

/-- Errors of the result summarizer. -/
inductive SummErr where
  /-- RuntimeError of src/src/quacc/schemas/cclib.py lines 123-125:
  optimization not complete under strict convergence checking. -/
  | notConverged
  /-- FileNotFoundError of make_base_cclib_schema: no log file found. -/
  | noLogfile
  /-- ValueError of src/quacc/recipes/dftb/core.py line 129: the DFTB+ log
  does not report geometry convergence. -/
  | geomNotConverged
  deriving DecidableEq, Repr

/-- The parsed cclib attributes, restricted to what the convergence check
reads: the optional `optdone` flag and an opaque payload standing for all
remaining parsed fields. -/
structure CclibAttrs where
  optdone : Option Bool
  payload : Nat
  deriving DecidableEq, Repr

/-- The strict-convergence gate of `CclibSummarize.run`
(src/src/quacc/schemas/cclib.py lines 113-170, the check at lines 123-125):
`if self.check_convergence and attributes.get("optdone") is False`, raise;
otherwise the merged task document (here: the payload together with the
convergence flag) is returned. -/
def cclib_summarize_run (check_convergence : Bool) (attrs : CclibAttrs) :
    Except SummErr (Nat × Option Bool) :=
  if check_convergence && (attrs.optdone == some false) then
    .error .notConverged
  else
    .ok (attrs.payload, attrs.optdone)

/-- The character codes of "Geometry converged", the string
src/quacc/recipes/dftb/core.py line 128 looks for in the DFTB+ log. -/
def geomConvergedStr : FName :=
  [71, 101, 111, 109, 101, 116, 114, 121, 32,
   99, 111, 110, 118, 101, 114, 103, 101, 100]

/-- The convergence gate of `relax_job` (src/quacc/recipes/dftb/core.py
lines 126-135): after the run, if the log does not contain "Geometry
converged", a ValueError is raised; otherwise the summary document is
returned. -/
def relax_job_convergence (log : List FName) (summary : Nat) :
    Except SummErr Nat :=
  if check_logfile log geomConvergedStr then .ok summary
  else .error .geomNotConverged

/-- A file of a completed run directory, as the summarizer sees it: its
name, its modification time, and the parsed content (an opaque payload,
unchanged by compression since the parser decompresses). -/
structure FileRec where
  name : FName
  mtime : Nat
  content : Nat
  deriving DecidableEq, Repr

/-- Does a name match any of the requested log-file extensions (the Python
`ext in f` test of find_recent_logfile)? -/
def matchesAny (exts : List FName) (n : FName) : Bool :=
  exts.any (fun e => isInfixB e n)

/-- Embedding of `find_recent_logfile` from src/src/quacc/util/files.py
lines 191-218: scan the directory, keeping the matching file with the
largest modification time seen so far; the running maximum starts at zero
and is only replaced by a strictly larger time. -/
def find_recent_logfile (files : List FileRec) (exts : List FName) :
    Option FileRec :=
  (files.foldl
    (fun acc f =>
      if matchesAny exts f.name && decide (acc.1 < f.mtime)
      then (f.mtime, some f) else acc)
    ((0 : Nat), (none : Option FileRec))).2

/-- The result document of the cclib summarizer, abstracted to the parsed
content of the chosen log file merged with the caller-supplied additional
fields. -/
structure CclibDoc where
  logContent : Nat
  extra : Nat
  deriving DecidableEq, Repr

/-- The document-building pass of `CclibSummarize.run`
(src/src/quacc/schemas/cclib.py lines 113-170 with make_base_cclib_schema):
locate the most recent log file, raise when none exists, and otherwise
merge its parsed content with the additional fields into the task
document. -/
def cclib_doc (files : List FileRec) (exts : List FName) (extraFields : Nat) :
    Except SummErr CclibDoc :=
  match find_recent_logfile files exts with
  | none => .error .noLogfile
  | some f => .ok { logContent := f.content, extra := extraFields }

/-- The effect of `gzip_dir` on a run directory (invoked by finalize_dict
when GZIP_FILES is set): every file not already compressed gains the `.gz`
suffix; times and parsed contents are unchanged. -/
def gzip_dir (files : List FileRec) : List FileRec :=
  files.map (fun f => { f with name := gzip_name f.name })

/-- One invocation of the summarizer together with its effect on the run
directory: the document is computed from the directory contents, and on
success finalize_dict gzips the directory when the global compression flag
is set (src/src/quacc/schemas/cclib.py lines 165-170).  On an error the
directory is left untouched. -/
def cclib_run_io (gzipFlag : Bool) (files : List FileRec) (exts : List FName)
    (extraFields : Nat) : Except SummErr CclibDoc × List FileRec :=
  match cclib_doc files exts extraFields with
  | .error e => (.error e, files)
  | .ok d => (.ok d, if gzipFlag then gzip_dir files else files)

/-- A heap of Atoms objects; a reference is an index. -/
abbrev Heap := List Atoms

/-- Heap-level embedding of `run_calc` (src/src/quacc/runners/ase.py lines
104-146), tracking aliasing: the caller passes a reference `r`; the runner
first allocates a fresh cell holding `copy_atoms` of the caller's object
(line 106) and every subsequent write — the calculator writing its results,
the geometry resynchronization overwriting positions and cell — targets
only that fresh cell.  Returns the reference of the result cell (or the
propagated error) and the final heap. -/
def run_calc_heap (behave : CalcBehaviour) (geomFile : GeomRead)
    (heap : Heap) (r : Nat) : Except RunErr Nat × Heap :=
  match heap[r]? with
  | none => (.error .geomRead, heap)
  | some a0 =>
      let cref := heap.length
      let heap1 := heap ++ [copy_atoms a0]
      match behave (copy_atoms a0) with
      | .error e => (.error (.calcFail e), heap1)
      | .ok a1 =>
          let heap2 := heap1.set cref a1
          match geomFile with
          | none => (.ok cref, heap2)
          | some frames =>
              match frames.getLast? with
              | none => (.error .geomRead, heap2)
              | some aNew =>
                  if aNew.numbers = a1.numbers then
                    (.ok cref,
                     heap2.set cref
                       { a1 with
                           positions := aNew.positions
                           cell := aNew.cell })
                  else (.error .speciesMismatch, heap2)

/-- Heap-level embedding of `run_opt` (src/src/quacc/runners/ase.py lines
203-272): the input is copied (line 204) and the optimizer then mutates
only the copy, one step at a time. -/
def run_opt_heap (step : Atoms → Atoms) (nsteps : Nat)
    (heap : Heap) (r : Nat) : Except RunErr Nat × Heap :=
  match heap[r]? with
  | none => (.error .geomRead, heap)
  | some a0 =>
      let cref := heap.length
      let heap1 := heap ++ [copy_atoms a0]
      (.ok cref, heap1.set cref (step^[nsteps] (copy_atoms a0)))

/-- Heap-level embedding of `run_vib` (src/src/quacc/runners/ase.py lines
275-324): the input is copied (line 303) and the vibration analysis then
writes only into the copy. -/
def run_vib_heap (vib : Atoms → Atoms) (heap : Heap) (r : Nat) :
    Except RunErr Nat × Heap :=
  match heap[r]? with
  | none => (.error .geomRead, heap)
  | some a0 =>
      let cref := heap.length
      let heap1 := heap ++ [copy_atoms a0]
      (.ok cref, heap1.set cref (vib (copy_atoms a0)))

/-! Theorems. -/

/-- Claim C1, counterexample: the cleanup/archival step does not run on
every exit path of `run_calc`.  On a concrete run whose geometry output
file parses to a different species sequence, `run_calc` exits with the
species-mismatch error while neither `calc_cleanup` nor `terminate` was
invoked: the resynchronization block of src/src/quacc/runners/ase.py
(lines 127-141) sits after the try/except and before the
`calc_cleanup` call (line 144), so its failure skips archival. -/
theorem run_calc_cleanup_every_path_counterexample :
    (run_calc (fun a => .ok a)
        (some [{ numbers := [8], positions := [((1 : Int), 0, 0)], cell := [],
                 magmoms := [], calc_ := none }])
        { numbers := [29], positions := [((0 : Int), 0, 0)], cell := [],
          magmoms := [], calc_ := some { params := [], results := [] } }).1
      = .error .speciesMismatch
    ∧ (run_calc (fun a => .ok a)
        (some [{ numbers := [8], positions := [((1 : Int), 0, 0)], cell := [],
                 magmoms := [], calc_ := none }])
        { numbers := [29], positions := [((0 : Int), 0, 0)], cell := [],
          magmoms := [], calc_ := some { params := [], results := [] } }).2.cleanups
      = 0
    ∧ (run_calc (fun a => .ok a)
        (some [{ numbers := [8], positions := [((1 : Int), 0, 0)], cell := [],
                 magmoms := [], calc_ := none }])
        { numbers := [29], positions := [((0 : Int), 0, 0)], cell := [],
          magmoms := [], calc_ := some { params := [], results := [] } }).2.terminates
      = 0 := by
  refine ⟨rfl, rfl, rfl⟩

/-- Claim C1, amended: on the normal-return path of `run_calc` the
cleanup/archival step runs exactly once, and when the wrapped calculator
raises, `terminate` performs archival once and the original exception is
re-raised unchanged — but on a geometry-resynchronization failure no
cleanup/archival runs (see the counterexample). -/
theorem run_calc_cleanup_amended (behave : CalcBehaviour)
    (geomFile : GeomRead) (a0 : Atoms) :
    (∀ out c, run_calc behave geomFile a0 = (.ok out, c) →
        c.cleanups = 1 ∧ c.terminates = 0)
    ∧ (∀ e, behave (copy_atoms a0) = .error e →
        run_calc behave geomFile a0 =
          (.error (.calcFail e),
           { setups := 1, cleanups := 0, terminates := 1 })) := by
  constructor
  · intro out c h
    simp only [run_calc] at h
    cases hb : behave (copy_atoms a0) with
    | error e =>
      rw [hb] at h; dsimp only at h
      exact absurd (congrArg Prod.fst h) (by simp)
    | ok a1 =>
      rw [hb] at h; dsimp only at h
      cases geomFile with
      | none =>
        obtain ⟨-, h2⟩ := Prod.mk.injEq _ _ _ _ ▸ h
        rw [← h2]
        exact ⟨rfl, rfl⟩
      | some frames =>
        dsimp only at h
        cases hl : frames.getLast? with
        | none =>
          rw [hl] at h; dsimp only at h
          exact absurd (congrArg Prod.fst h) (by simp)
        | some g =>
          rw [hl] at h; dsimp only at h
          by_cases hg : g.numbers = a1.numbers
          · rw [if_pos hg] at h
            obtain ⟨-, h2⟩ := Prod.mk.injEq _ _ _ _ ▸ h
            rw [← h2]
            exact ⟨rfl, rfl⟩
          · rw [if_neg hg] at h
            exact absurd (congrArg Prod.fst h) (by simp)
  · intro e hb
    simp only [run_calc]
    rw [hb]

/-- Claim C1, witness for the amended theorem at a concrete successful run
and a concrete raising run. -/
theorem run_calc_cleanup_amended_witness :
    ((run_calc (fun a => .ok a) none
        { numbers := [29], positions := [], cell := [], magmoms := [],
          calc_ := none }).2.cleanups = 1
      ∧ (run_calc (fun a => .ok a) none
        { numbers := [29], positions := [], cell := [], magmoms := [],
          calc_ := none }).2.terminates = 0)
    ∧ run_calc (fun _ => .error 3) none
        { numbers := [29], positions := [], cell := [], magmoms := [],
          calc_ := none } =
        (.error (.calcFail 3),
         { setups := 1, cleanups := 0, terminates := 1 }) := by
  constructor
  · exact
      (run_calc_cleanup_amended (fun a => .ok a) none
        { numbers := [29], positions := [], cell := [], magmoms := [],
          calc_ := none }).1
        { numbers := [29], positions := [], cell := [], magmoms := [],
          calc_ := none }
        { setups := 1, cleanups := 1, terminates := 0 } rfl
  · exact
      (run_calc_cleanup_amended (fun _ => .error 3) none
        { numbers := [29], positions := [], cell := [], magmoms := [],
          calc_ := none }).2 3 rfl

/-- Claim C2: when a geometry-output file is supplied and parsed, the
returned structure is the post-calculation structure with only its
positions and cell overwritten from the last parsed frame; the attached
calculator (carrying the computation results) is preserved, and the atom
count and species ordering equal those of the input.  `a1` is the structure
the wrapped calculator returned (its species sequence unchanged, as ASE
calculators never edit chemical identity). -/
theorem run_calc_resync_preserves (behave : CalcBehaviour)
    (frames : List Atoms) (a0 a1 g out : Atoms) (c : RunCounters)
    (hb : behave (copy_atoms a0) = .ok a1)
    (hnum : a1.numbers = a0.numbers)
    (hg : frames.getLast? = some g)
    (h : run_calc behave (some frames) a0 = (.ok out, c)) :
    out = { a1 with positions := g.positions, cell := g.cell }
    ∧ out.calc_ = a1.calc_
    ∧ out.numbers = a0.numbers
    ∧ out.numbers.length = a0.numbers.length
    ∧ out.magmoms = a1.magmoms := by
  simp only [run_calc] at h
  rw [hb] at h; dsimp only at h
  rw [hg] at h; dsimp only at h
  by_cases hgn : g.numbers = a1.numbers
  · rw [if_pos hgn] at h
    obtain ⟨h1, -⟩ := Prod.mk.injEq _ _ _ _ ▸ h
    have hout : out = { a1 with positions := g.positions, cell := g.cell } :=
      (Except.ok.injEq _ _ ▸ h1).symm
    subst hout
    exact ⟨rfl, rfl, hnum, by rw [hnum], rfl⟩
  · rw [if_neg hgn] at h
    exact absurd (congrArg Prod.fst h) (by simp)

/-- Claim C2, witness: a concrete run with a matching geometry frame. -/
theorem run_calc_resync_preserves_witness :
    ({ numbers := [29], positions := [((5 : Int), 5, 5)],
       cell := [((9 : Int), 0, 0)], magmoms := [2],
       calc_ := some { params := [], results := [(0, 7)] } } : Atoms)
      = { ({ numbers := [29], positions := [((0 : Int), 0, 0)],
             cell := [], magmoms := [2],
             calc_ := some { params := [], results := [(0, 7)] } } : Atoms) with
            positions := [((5 : Int), 5, 5)], cell := [((9 : Int), 0, 0)] }
    ∧ ({ numbers := [29], positions := [((5 : Int), 5, 5)],
         cell := [((9 : Int), 0, 0)], magmoms := [2],
         calc_ := some { params := [], results := [(0, 7)] } } : Atoms).calc_
      = ({ numbers := [29], positions := [((0 : Int), 0, 0)],
           cell := [], magmoms := [2],
           calc_ := some { params := [], results := [(0, 7)] } } : Atoms).calc_
    ∧ ({ numbers := [29], positions := [((5 : Int), 5, 5)],
         cell := [((9 : Int), 0, 0)], magmoms := [2],
         calc_ := some { params := [], results := [(0, 7)] } } : Atoms).numbers
      = ({ numbers := [29], positions := [((0 : Int), 0, 0)],
           cell := [], magmoms := [0],
           calc_ := some { params := [], results := [] } } : Atoms).numbers
    ∧ ({ numbers := [29], positions := [((5 : Int), 5, 5)],
         cell := [((9 : Int), 0, 0)], magmoms := [2],
         calc_ := some { params := [], results := [(0, 7)] } } : Atoms).numbers.length
      = ({ numbers := [29], positions := [((0 : Int), 0, 0)],
           cell := [], magmoms := [0],
           calc_ := some { params := [], results := [] } } : Atoms).numbers.length
    ∧ ({ numbers := [29], positions := [((5 : Int), 5, 5)],
         cell := [((9 : Int), 0, 0)], magmoms := [2],
         calc_ := some { params := [], results := [(0, 7)] } } : Atoms).magmoms
      = ({ numbers := [29], positions := [((0 : Int), 0, 0)],
           cell := [], magmoms := [2],
           calc_ := some { params := [], results := [(0, 7)] } } : Atoms).magmoms := by
  exact
    run_calc_resync_preserves
      (fun a =>
        .ok { a with
                magmoms := [2]
                calc_ := some { params := [], results := [(0, 7)] } })
      [{ numbers := [29], positions := [((5 : Int), 5, 5)],
         cell := [((9 : Int), 0, 0)], magmoms := [], calc_ := none }]
      { numbers := [29], positions := [((0 : Int), 0, 0)], cell := [],
        magmoms := [0], calc_ := some { params := [], results := [] } }
      { numbers := [29], positions := [((0 : Int), 0, 0)], cell := [],
        magmoms := [2], calc_ := some { params := [], results := [(0, 7)] } }
      { numbers := [29], positions := [((5 : Int), 5, 5)],
        cell := [((9 : Int), 0, 0)], magmoms := [], calc_ := none }
      { numbers := [29], positions := [((5 : Int), 5, 5)],
        cell := [((9 : Int), 0, 0)], magmoms := [2],
        calc_ := some { params := [], results := [(0, 7)] } }
      { setups := 1, cleanups := 1, terminates := 0 }
      rfl rfl rfl rfl

/-- Claim C3: under a calculator that does not alter the species sequence,
if the species parsed from the geometry file (last frame) differ from the
input, `run_calc` exits with an error (the species-mismatch ValueError, or
the propagated calculator failure when the computation already raised), and
whenever `run_calc` does return a structure its species sequence equals
that of the input. -/
theorem run_calc_species_fatal (behave : CalcBehaviour)
    (frames : List Atoms) (a0 : Atoms)
    (hb : ∀ a a1, behave a = .ok a1 → a1.numbers = a.numbers) :
    (∀ g, frames.getLast? = some g → g.numbers ≠ a0.numbers →
        (run_calc behave (some frames) a0).1 = .error .speciesMismatch
        ∨ ∃ e, (run_calc behave (some frames) a0).1 = .error (.calcFail e))
    ∧ (∀ out c, run_calc behave (some frames) a0 = (.ok out, c) →
        out.numbers = a0.numbers) := by
  constructor
  · intro g hg hne
    simp only [run_calc]
    cases hbe : behave (copy_atoms a0) with
    | error e => exact Or.inr ⟨e, rfl⟩
    | ok a1 =>
      dsimp only
      rw [hg]; dsimp only
      have hna : a1.numbers = a0.numbers := hb _ _ hbe
      rw [if_neg (fun hc => hne (hc.trans hna))]
      exact Or.inl rfl
  · intro out c h
    simp only [run_calc] at h
    cases hbe : behave (copy_atoms a0) with
    | error e =>
      rw [hbe] at h; dsimp only at h
      exact absurd (congrArg Prod.fst h) (by simp)
    | ok a1 =>
      rw [hbe] at h; dsimp only at h
      have hna : a1.numbers = a0.numbers := hb _ _ hbe
      cases hl : frames.getLast? with
      | none =>
        rw [hl] at h; dsimp only at h
        exact absurd (congrArg Prod.fst h) (by simp)
      | some g =>
        rw [hl] at h; dsimp only at h
        by_cases hgn : g.numbers = a1.numbers
        · rw [if_pos hgn] at h
          obtain ⟨h1, -⟩ := Prod.mk.injEq _ _ _ _ ▸ h
          have hout := (Except.ok.injEq _ _ ▸ h1)
          rw [← hout]
          exact hna
        · rw [if_neg hgn] at h
          exact absurd (congrArg Prod.fst h) (by simp)

/-- Claim C3, witness: a concrete run whose geometry frame carries a
different species sequence exits with the species-mismatch error. -/
theorem run_calc_species_fatal_witness :
    (run_calc (fun a => .ok a)
        (some [{ numbers := [8, 8], positions := [], cell := [],
                 magmoms := [], calc_ := none }])
        { numbers := [29], positions := [], cell := [], magmoms := [],
          calc_ := some { params := [], results := [] } }).1
      = .error .speciesMismatch
    ∨ ∃ e, (run_calc (fun a => .ok a)
        (some [{ numbers := [8, 8], positions := [], cell := [],
                 magmoms := [], calc_ := none }])
        { numbers := [29], positions := [], cell := [], magmoms := [],
          calc_ := some { params := [], results := [] } }).1
      = .error (.calcFail e) := by
  exact
    (run_calc_species_fatal (fun a => .ok a)
        [{ numbers := [8, 8], positions := [], cell := [],
           magmoms := [], calc_ := none }]
        { numbers := [29], positions := [], cell := [], magmoms := [],
          calc_ := some { params := [], results := [] } }
        (fun a a1 h => by cases h; rfl)).1
      { numbers := [8, 8], positions := [], cell := [],
        magmoms := [], calc_ := none }
      rfl (by decide)

/-- The optimizer loop never takes more steps than its budget. -/
theorem irun_steps_le {σ : Type} (step : σ → σ) (mf : σ → ℚ) (fmax : ℚ) :
    ∀ (n : Nat) (s : σ), (irun step mf fmax n s).1 ≤ n
  | 0, _ => Nat.le_refl 0
  | n + 1, s => by
      simp only [irun]
      by_cases h : mf s ≤ fmax
      · rw [if_pos h]; exact Nat.zero_le _
      · rw [if_neg h]
        exact Nat.succ_le_succ (irun_steps_le step mf fmax n (step s))

/-- The trajectory holds one frame per step taken. -/
theorem irun_traj_length {σ : Type} (step : σ → σ) (mf : σ → ℚ) (fmax : ℚ) :
    ∀ (n : Nat) (s : σ), (irun step mf fmax n s).2.2.length = (irun step mf fmax n s).1
  | 0, _ => rfl
  | n + 1, s => by
      simp only [irun]
      by_cases h : mf s ≤ fmax
      · rw [if_pos h]; rfl
      · rw [if_neg h]
        exact congrArg Nat.succ (irun_traj_length step mf fmax n (step s))

/-- The final state is the input advanced by the number of steps taken. -/
theorem irun_final_state {σ : Type} (step : σ → σ) (mf : σ → ℚ) (fmax : ℚ) :
    ∀ (n : Nat) (s : σ), (irun step mf fmax n s).2.1 = step^[(irun step mf fmax n s).1] s
  | 0, _ => rfl
  | n + 1, s => by
      simp only [irun]
      by_cases h : mf s ≤ fmax
      · rw [if_pos h]; rfl
      · rw [if_neg h]
        dsimp only
        rw [irun_final_state step mf fmax n (step s), Function.iterate_succ_apply]

/-- The loop stops only at convergence or at budget exhaustion. -/
theorem irun_stop {σ : Type} (step : σ → σ) (mf : σ → ℚ) (fmax : ℚ) :
    ∀ (n : Nat) (s : σ),
      mf (irun step mf fmax n s).2.1 ≤ fmax ∨ (irun step mf fmax n s).1 = n
  | 0, _ => Or.inr rfl
  | n + 1, s => by
      simp only [irun]
      by_cases h : mf s ≤ fmax
      · rw [if_pos h]; exact Or.inl h
      · rw [if_neg h]
        rcases irun_stop step mf fmax n (step s) with h1 | h1
        · exact Or.inl h1
        · exact Or.inr (congrArg Nat.succ h1)

/-- Before the step at which the loop stopped, no intermediate state was
converged: the loop stops at the first convergent state within budget. -/
theorem irun_first {σ : Type} (step : σ → σ) (mf : σ → ℚ) (fmax : ℚ) :
    ∀ (n : Nat) (s : σ) (j : Nat), j < (irun step mf fmax n s).1 →
      fmax < mf (step^[j] s)
  | 0, _, j, hj => absurd hj (Nat.not_lt_zero j)
  | n + 1, s, j, hj => by
      simp only [irun] at hj
      by_cases h : mf s ≤ fmax
      · rw [if_pos h] at hj
        exact absurd hj (Nat.not_lt_zero j)
      · rw [if_neg h] at hj
        cases j with
        | zero => exact lt_of_not_le h
        | succ j =>
          rw [Function.iterate_succ_apply]
          exact irun_first step mf fmax n (step s) j (Nat.lt_of_succ_lt_succ hj)

/-- Claim C4: a relaxation run with force tolerance 0.01 and step budget
1000 stops either at convergence (maximum force at most 0.01) or exactly at
step 1000, whichever comes first (no earlier state was converged), and the
trajectory contains one frame per step taken. -/
theorem run_opt_termination {σ : Type} (step : σ → σ) (mf : σ → ℚ) (s0 : σ) :
    (run_opt step mf (1 / 100) 1000 s0).1 ≤ 1000
    ∧ (run_opt step mf (1 / 100) 1000 s0).2.2.length
        = (run_opt step mf (1 / 100) 1000 s0).1
    ∧ (mf (run_opt step mf (1 / 100) 1000 s0).2.1 ≤ 1 / 100
        ∨ (run_opt step mf (1 / 100) 1000 s0).1 = 1000)
    ∧ (∀ j, j < (run_opt step mf (1 / 100) 1000 s0).1 →
        1 / 100 < mf (step^[j] s0))
    ∧ (run_opt step mf (1 / 100) 1000 s0).2.1
        = step^[(run_opt step mf (1 / 100) 1000 s0).1] s0 :=
  ⟨irun_steps_le step mf (1 / 100) 1000 s0,
   irun_traj_length step mf (1 / 100) 1000 s0,
   irun_stop step mf (1 / 100) 1000 s0,
   fun j hj => irun_first step mf (1 / 100) 1000 s0 j hj,
   irun_final_state step mf (1 / 100) 1000 s0⟩

/-- Claim C4, witness: a concrete relaxation whose maximum force is the
constant 1 never converges, so it takes a positive number of steps and its
state before step 0 was indeed not yet converged. -/
theorem run_opt_termination_witness :
    (run_opt (fun q : ℚ => q) (fun _ : ℚ => (1 : ℚ)) (1 / 100) 1000 1).1 ≤ 1000
    ∧ (1 : ℚ) / 100
        < (fun _ : ℚ => (1 : ℚ)) ((fun q : ℚ => q)^[0] (1 : ℚ)) := by
  have hk : (run_opt (fun q : ℚ => q) (fun _ : ℚ => (1 : ℚ))
      (1 / 100) 1000 1).1 = 1000 := by
    rcases irun_stop (fun q : ℚ => q) (fun _ : ℚ => (1 : ℚ)) (1 / 100) 1000 1
      with h | h
    · exact absurd h (by norm_num)
    · exact h
  refine ⟨(run_opt_termination (fun q : ℚ => q) (fun _ : ℚ => (1 : ℚ)) 1).1,
    (run_opt_termination (fun q : ℚ => q) (fun _ : ℚ => (1 : ℚ)) 1).2.2.2.1 0 ?_⟩
  rw [hk]
  exact Nat.zero_lt_succ _

/-- Claim C5: with strict convergence checking enabled, a parsed
convergence flag that is present and false makes the summarizer raise
instead of returning a document; an absent or true flag yields a document.
Likewise, when the external code's log reports non-convergence (the DFTB+
log lacks "Geometry converged"), the job raises instead of returning its
result document. -/
theorem summarizer_convergence_gate (check : Bool) (attrs : CclibAttrs)
    (log : List FName) (summary : Nat) :
    (check = true → attrs.optdone = some false →
        cclib_summarize_run check attrs = .error .notConverged)
    ∧ (attrs.optdone = none →
        cclib_summarize_run check attrs = .ok (attrs.payload, attrs.optdone))
    ∧ (attrs.optdone = some true →
        cclib_summarize_run check attrs = .ok (attrs.payload, attrs.optdone))
    ∧ (check_logfile log geomConvergedStr = false →
        relax_job_convergence log summary = .error .geomNotConverged)
    ∧ (check_logfile log geomConvergedStr = true →
        relax_job_convergence log summary = .ok summary) := by
  refine ⟨fun h1 h2 => ?_, fun h => ?_, fun h => ?_, fun h => ?_, fun h => ?_⟩
  · simp [cclib_summarize_run, h1, h2]
  · simp [cclib_summarize_run, h]
  · simp [cclib_summarize_run, h]
  · simp [relax_job_convergence, h]
  · simp [relax_job_convergence, h]

/-- Claim C5, witness: a present-and-false flag under strict checking
raises; an absent flag returns the document; a log with no convergence
line raises. -/
theorem summarizer_convergence_gate_witness :
    cclib_summarize_run true { optdone := some false, payload := 5 }
      = .error .notConverged
    ∧ cclib_summarize_run true { optdone := none, payload := 5 }
      = .ok (5, none)
    ∧ relax_job_convergence [[97, 98, 99]] 7 = .error .geomNotConverged :=
  ⟨(summarizer_convergence_gate true { optdone := some false, payload := 5 }
      [] 0).1 rfl rfl,
   (summarizer_convergence_gate true { optdone := none, payload := 5 }
      [] 0).2.1 rfl,
   (summarizer_convergence_gate true { optdone := none, payload := 5 }
      [[97, 98, 99]] 7).2.2.2.1 (by decide)⟩

/-- Claim C6: staging replaces any pre-existing `tmp_dir` alias with a link
to the freshly created scratch directory (whose name cannot collide with an
existing one in a well-formed state), and once staging has run, the alias
is never left dangling when `util_run_calc` exits, on the success path as
well as on the computation-exception path. -/
theorem tmp_dir_alias_lifecycle (behave : OldCalcBehaviour)
    (geomFile : OldGeomRead) (gzipFlag : Bool) (copyFiles : List FName)
    (a0 : Atoms) (fs : OldFS) :
    (util_stage fs copyFiles).2.link = some (util_stage fs copyFiles).1
    ∧ (fs.WF → (util_stage fs copyFiles).1 ∉ fs.dirs)
    ∧ (a0.calc_ ≠ none →
        ¬ (util_run_calc behave geomFile gzipFlag copyFiles a0 fs).2.Dangling) := by
  refine ⟨rfl, fun hWF hmem => lt_irrefl _ (hWF _ hmem), fun hcalc => ?_⟩
  simp only [util_run_calc, if_neg hcalc]
  rintro ⟨t, hlink, hmem⟩
  revert hlink hmem
  split
  · intro hlink hmem
    have ht : fs.nextId = t := by simpa [util_stage] using hlink
    apply hmem
    rw [← ht]
    simp [util_stage]
  · intro hlink hmem
    clear hmem
    repeat' split at hlink
    all_goals simp at hlink

/-- Claim C6, witness: a staging that begins with an existing alias ends
with the alias pointing at the new scratch directory, and a concrete
successful run leaves no dangling alias. -/
theorem tmp_dir_alias_lifecycle_witness :
    (util_stage { dirs := [0], nextId := 1, cwdFiles := [], tmpFiles := [],
                  link := some 0, cwd := none } []).2.link
      = some (util_stage { dirs := [0], nextId := 1, cwdFiles := [],
                           tmpFiles := [], link := some 0, cwd := none } []).1
    ∧ ¬ (util_run_calc (fun a _ => .ok (a, [])) none false []
          { numbers := [29], positions := [], cell := [], magmoms := [],
            calc_ := some { params := [], results := [] } }
          { dirs := [0], nextId := 1, cwdFiles := [], tmpFiles := [],
            link := some 0, cwd := none }).2.Dangling :=
  ⟨(tmp_dir_alias_lifecycle (fun a _ => .ok (a, [])) none false []
      { numbers := [29], positions := [], cell := [], magmoms := [],
        calc_ := some { params := [], results := [] } }
      { dirs := [0], nextId := 1, cwdFiles := [], tmpFiles := [],
        link := some 0, cwd := none }).1,
   (tmp_dir_alias_lifecycle (fun a _ => .ok (a, [])) none false []
      { numbers := [29], positions := [], cell := [], magmoms := [],
        calc_ := some { params := [], results := [] } }
      { dirs := [0], nextId := 1, cwdFiles := [], tmpFiles := [],
        link := some 0, cwd := none }).2.2 (by decide)⟩

/-- Every manifest entry is either staged or warned about: staging
processes the whole manifest. -/
theorem copy_decompress_length (sourceDir : List FName) :
    ∀ files : List FName,
      (copy_decompress sourceDir files).1.length
        + (copy_decompress sourceDir files).2.length = files.length
  | [] => rfl
  | f :: rest => by
      simp only [copy_decompress]
      by_cases hz :
          sourceDir.contains (zpath (fun g => sourceDir.contains g) f) = true
      · rw [if_pos hz]
        simpa [Nat.succ_add] using copy_decompress_length sourceDir rest
      · rw [if_neg hz]
        have := copy_decompress_length sourceDir rest
        simp only [List.length_cons]
        omega

/-- A manifest entry whose file (and compressed variant) is absent from the
source ends up among the warnings. -/
theorem copy_decompress_warn_mem (sourceDir : List FName) :
    ∀ (files : List FName) (f : FName), f ∈ files →
      sourceDir.contains (zpath (fun g => sourceDir.contains g) f) = false →
        zpath (fun g => sourceDir.contains g) f
          ∈ (copy_decompress sourceDir files).2
  | [], f, hf, _ => absurd hf (List.not_mem_nil f)
  | g :: rest, f, hf, habs => by
      simp only [copy_decompress]
      rcases List.mem_cons.mp hf with hf | hf
      · subst hf
        rw [if_neg (by simp only [habs]; exact Bool.false_ne_true)]
        exact List.mem_cons_self _ _
      · by_cases hz :
            sourceDir.contains (zpath (fun x => sourceDir.contains x) g) = true
        · rw [if_pos hz]
          exact copy_decompress_warn_mem sourceDir rest f hf habs
        · rw [if_neg hz]
          exact List.mem_cons_of_mem _
            (copy_decompress_warn_mem sourceDir rest f hf habs)

/-- A manifest entry found at the source (possibly compressed) ends up in
the destination, decompressed. -/
theorem copy_decompress_dest_mem (sourceDir : List FName) :
    ∀ (files : List FName) (f : FName), f ∈ files →
      sourceDir.contains (zpath (fun g => sourceDir.contains g) f) = true →
        decompress_file (zpath (fun g => sourceDir.contains g) f)
          ∈ (copy_decompress sourceDir files).1
  | [], f, hf, _ => absurd hf (List.not_mem_nil f)
  | g :: rest, f, hf, hpres => by
      simp only [copy_decompress]
      rcases List.mem_cons.mp hf with hf | hf
      · subst hf
        rw [if_pos hpres]
        exact List.mem_cons_self _ _
      · by_cases hz :
            sourceDir.contains (zpath (fun x => sourceDir.contains x) g) = true
        · rw [if_pos hz]
          exact List.mem_cons_of_mem _
            (copy_decompress_dest_mem sourceDir rest f hf hpres)
        · rw [if_neg hz]
          exact copy_decompress_dest_mem sourceDir rest f hf hpres

/-- Claim C7: a manifest file absent from the source (its compressed
variant included) produces a warning while staging proceeds with the
remaining files; staging never aborts — every manifest entry is accounted
for as either a staged file or a warning. -/
theorem copy_decompress_missing_warns (sourceDir files : List FName) :
    (copy_decompress sourceDir files).1.length
        + (copy_decompress sourceDir files).2.length = files.length
    ∧ (∀ f ∈ files,
        sourceDir.contains (zpath (fun g => sourceDir.contains g) f) = false →
          zpath (fun g => sourceDir.contains g) f
            ∈ (copy_decompress sourceDir files).2)
    ∧ (∀ f ∈ files,
        sourceDir.contains (zpath (fun g => sourceDir.contains g) f) = true →
          decompress_file (zpath (fun g => sourceDir.contains g) f)
            ∈ (copy_decompress sourceDir files).1) :=
  ⟨copy_decompress_length sourceDir files,
   fun f hf habs => copy_decompress_warn_mem sourceDir files f hf habs,
   fun f hf hpres => copy_decompress_dest_mem sourceDir files f hf hpres⟩

/-- Claim C7, witness: a manifest with one present and one missing file
stages the first and warns about the second. -/
theorem copy_decompress_missing_warns_witness :
    (copy_decompress [[97]] [[97], [98]]).1.length
        + (copy_decompress [[97]] [[97], [98]]).2.length = 2
    ∧ zpath (fun g => [[97]].contains g) [98]
        ∈ (copy_decompress [[97]] [[97], [98]]).2 :=
  ⟨(copy_decompress_missing_warns [[97]] [[97], [98]]).1,
   (copy_decompress_missing_warns [[97]] [[97], [98]]).2.1 [98]
      (by decide) (by decide)⟩

/-- Dropping the `.gz` suffix recovers the plain name. -/
theorem decompress_file_append_gz (f : FName) :
    decompress_file (f ++ gzExt) = f := by
  have hsuf : gzExt.isSuffixOf (f ++ gzExt) = true :=
    List.isSuffixOf_iff_suffix.mpr (List.suffix_append f gzExt)
  simp only [decompress_file, hsuf, if_true, List.length_append]
  have : f.length + gzExt.length - gzExt.length = f.length := by omega
  rw [this, List.take_left]

/-- Claim C8: a manifest file that is stored compressed at the source is
present, decompressed, in the scratch directory produced by staging — and
staging runs before the computation is invoked (`util_run_calc` calls the
wrapped calculator on the scratch contents produced by `util_stage`). -/
theorem staging_decompresses (fs : OldFS) (copyFiles : List FName) (f : FName)
    (hin : f ∈ copyFiles)
    (habs : fs.cwdFiles.contains f = false)
    (hgz : fs.cwdFiles.contains (f ++ gzExt) = true) :
    f ∈ (util_stage fs copyFiles).2.tmpFiles := by
  have hz : zpath (fun g => fs.cwdFiles.contains g) f = f ++ gzExt := by
    simp only [zpath, habs, hgz]
    rfl
  have hpres :
      fs.cwdFiles.contains (zpath (fun g => fs.cwdFiles.contains g) f) = true := by
    rw [hz]; exact hgz
  have hmem := copy_decompress_dest_mem fs.cwdFiles copyFiles f hin hpres
  rw [hz, decompress_file_append_gz] at hmem
  simpa [util_stage] using hmem

/-- Claim C8, witness: the manifest entry "b" stored as "b.gz" at the
source is present decompressed in scratch after staging. -/
theorem staging_decompresses_witness :
    [98] ∈ (util_stage
        { dirs := [], nextId := 0, cwdFiles := [[98, 46, 103, 122]],
          tmpFiles := [], link := none, cwd := none } [[98]]).2.tmpFiles :=
  staging_decompresses
    { dirs := [], nextId := 0, cwdFiles := [[98, 46, 103, 122]],
      tmpFiles := [], link := none, cwd := none }
    [[98]] [98] (by decide) (by decide) (by decide)

/-- The observable key of a candidate log file: its modification time and
parsed content (what selection and document building depend on). -/
def recKey : Option FileRec → Option (Nat × Nat)
  | none => none
  | some f => some (f.mtime, f.content)

/-- Folding the log-file selection over a gzipped directory tracks the fold
over the original directory, provided gzipping does not change which names
match the requested extensions. -/
theorem find_recent_logfile_gzip_aux (exts : List FName) :
    ∀ (files : List FileRec) (m : Nat) (b b' : Option FileRec),
      (∀ f ∈ files,
        matchesAny exts (gzip_name f.name) = matchesAny exts f.name) →
      recKey b' = recKey b →
      recKey ((gzip_dir files).foldl
          (fun acc f =>
            if matchesAny exts f.name && decide (acc.1 < f.mtime)
            then (f.mtime, some f) else acc) (m, b')).2
        = recKey (files.foldl
          (fun acc f =>
            if matchesAny exts f.name && decide (acc.1 < f.mtime)
            then (f.mtime, some f) else acc) (m, b)).2
  | [], _, _, _, _, hb => hb
  | f :: rest, m, b, b', h, hb => by
      simp only [gzip_dir, List.map_cons, List.foldl_cons]
      have hmatch := h f (List.mem_cons_self f rest)
      by_cases hc : (matchesAny exts f.name && decide (m < f.mtime)) = true
      · rw [if_pos (by simpa [hmatch] using hc), if_pos hc]
        exact find_recent_logfile_gzip_aux exts rest f.mtime (some f)
          (some { f with name := gzip_name f.name })
          (fun g hg => h g (List.mem_cons_of_mem f hg)) rfl
      · rw [if_neg (by simpa [hmatch] using hc), if_neg hc]
        exact find_recent_logfile_gzip_aux exts rest m b b'
          (fun g hg => h g (List.mem_cons_of_mem f hg)) hb

/-- Gzipping the run directory does not change the modification time or
parsed content of the chosen log file. -/
theorem find_recent_logfile_gzip (files : List FileRec) (exts : List FName)
    (h : ∀ f ∈ files,
        matchesAny exts (gzip_name f.name) = matchesAny exts f.name) :
    recKey (find_recent_logfile (gzip_dir files) exts)
      = recKey (find_recent_logfile files exts) :=
  find_recent_logfile_gzip_aux exts files 0 none none h rfl

/-- The summarizer document is unchanged by gzipping the run directory. -/
theorem cclib_doc_gzip (files : List FileRec) (exts : List FName)
    (extra : Nat)
    (h : ∀ f ∈ files,
        matchesAny exts (gzip_name f.name) = matchesAny exts f.name) :
    cclib_doc (gzip_dir files) exts extra = cclib_doc files exts extra := by
  have hk := find_recent_logfile_gzip files exts h
  unfold cclib_doc
  cases h1 : find_recent_logfile files exts with
  | none =>
      cases h2 : find_recent_logfile (gzip_dir files) exts with
      | none => rfl
      | some g => rw [h1, h2] at hk; simp [recKey] at hk
  | some f =>
      cases h2 : find_recent_logfile (gzip_dir files) exts with
      | none => rw [h1, h2] at hk; simp [recKey] at hk
      | some g =>
          rw [h1, h2] at hk
          simp only [recKey, Option.some.injEq, Prod.mk.injEq] at hk
          simp [hk.2]

/-- Claim C9: running the result summarizer a second time on the same
completed run output produces an identical document.  The first invocation
may gzip the directory as its only side effect; as long as gzipping does
not change which file names match the requested log extensions, the second
invocation selects the same log file (same time, same parsed content) and
merges the same fields, so the documents coincide. -/
theorem summarizer_idempotent (gz : Bool) (files : List FileRec)
    (exts : List FName) (extra : Nat)
    (h : ∀ f ∈ files,
        matchesAny exts (gzip_name f.name) = matchesAny exts f.name) :
    (cclib_run_io gz (cclib_run_io gz files exts extra).2 exts extra).1
      = (cclib_run_io gz files exts extra).1 := by
  unfold cclib_run_io
  cases hd : cclib_doc files exts extra with
  | error e => simp [hd]
  | ok d =>
      cases gz with
      | false => simp [hd]
      | true =>
          have hg := cclib_doc_gzip files exts extra h
          simp [hd, hg]

/-- Claim C9, witness: a directory holding the single log file "a.log"
(parsed content 42), searched with extension ".log", yields the same
document on the second, post-gzip invocation. -/
theorem summarizer_idempotent_witness :
    (cclib_run_io true
        (cclib_run_io true
          [{ name := [97, 46, 108, 111, 103], mtime := 1, content := 42 }]
          [[46, 108, 111, 103]] 7).2
        [[46, 108, 111, 103]] 7).1
      = (cclib_run_io true
          [{ name := [97, 46, 108, 111, 103], mtime := 1, content := 42 }]
          [[46, 108, 111, 103]] 7).1 :=
  summarizer_idempotent true
    [{ name := [97, 46, 108, 111, 103], mtime := 1, content := 42 }]
    [[46, 108, 111, 103]] 7 (by decide)

/-- An element of the original heap is untouched by appending a cell and
overwriting the appended cell. -/
theorem append_set_getElem (heap : Heap) (x y : Atoms) (r : Nat)
    (h : r < heap.length) :
    ((heap ++ [x]).set heap.length y)[r]? = heap[r]? := by
  rw [List.getElem?_set_ne (Nat.ne_of_gt h)]
  exact List.getElem?_append_left h

/-- Overwriting the appended cell twice also leaves the original heap
untouched. -/
theorem append_set_set_getElem (heap : Heap) (x y z : Atoms) (r : Nat)
    (h : r < heap.length) :
    (((heap ++ [x]).set heap.length y).set heap.length z)[r]? = heap[r]? := by
  rw [List.getElem?_set_ne (Nat.ne_of_gt h),
    List.getElem?_set_ne (Nat.ne_of_gt h)]
  exact List.getElem?_append_left h

/-- Claim C10: the runner entry points never mutate the caller's Atoms
object: each allocates a copy and mutates only the fresh cell, so the
caller's cell of the heap — positions, cell, magnetic moments and attached
calculator included — is unchanged on every exit path of `run_calc`,
`run_opt` and `run_vib`. -/
theorem runners_do_not_mutate_caller (behave : CalcBehaviour)
    (geomFile : GeomRead) (step vib : Atoms → Atoms) (nsteps : Nat)
    (heap : Heap) (r : Nat) (h : r < heap.length) :
    (run_calc_heap behave geomFile heap r).2[r]? = heap[r]?
    ∧ (run_opt_heap step nsteps heap r).2[r]? = heap[r]?
    ∧ (run_vib_heap vib heap r).2[r]? = heap[r]? := by
  refine ⟨?_, ?_, ?_⟩
  · cases hr : heap[r]? with
    | none => simp only [run_calc_heap, hr]
    | some a0 =>
      simp only [run_calc_heap, hr]
      split
      · exact (List.getElem?_append_left h).trans hr
      · split
        · exact (append_set_getElem heap _ _ r h).trans hr
        · split
          · exact (append_set_getElem heap _ _ r h).trans hr
          · split
            · exact (append_set_set_getElem heap _ _ _ r h).trans hr
            · exact (append_set_getElem heap _ _ r h).trans hr
  · cases hr : heap[r]? with
    | none => simp only [run_opt_heap, hr]
    | some a0 =>
      simp only [run_opt_heap, hr]
      exact (append_set_getElem heap _ _ r h).trans hr
  · cases hr : heap[r]? with
    | none => simp only [run_vib_heap, hr]
    | some a0 =>
      simp only [run_vib_heap, hr]
      exact (append_set_getElem heap _ _ r h).trans hr

/-- Claim C10, witness: a concrete one-cell heap is unchanged at the
caller's reference by all three runners. -/
theorem runners_do_not_mutate_caller_witness :
    (run_calc_heap (fun a => .ok a) none
        [{ numbers := [29], positions := [((0 : Int), 0, 0)], cell := [],
           magmoms := [], calc_ := none }] 0).2[0]?
      = [({ numbers := [29], positions := [((0 : Int), 0, 0)], cell := [],
            magmoms := [], calc_ := none } : Atoms)][0]?
    ∧ (run_opt_heap id 5
        [{ numbers := [29], positions := [((0 : Int), 0, 0)], cell := [],
           magmoms := [], calc_ := none }] 0).2[0]?
      = [({ numbers := [29], positions := [((0 : Int), 0, 0)], cell := [],
            magmoms := [], calc_ := none } : Atoms)][0]?
    ∧ (run_vib_heap id
        [{ numbers := [29], positions := [((0 : Int), 0, 0)], cell := [],
           magmoms := [], calc_ := none }] 0).2[0]?
      = [({ numbers := [29], positions := [((0 : Int), 0, 0)], cell := [],
            magmoms := [], calc_ := none } : Atoms)][0]? :=
  runners_do_not_mutate_caller (fun a => .ok a) none id id 5
    [{ numbers := [29], positions := [((0 : Int), 0, 0)], cell := [],
       magmoms := [], calc_ := none }] 0 (by decide)

end Quacc
